import Mathlib

/-
Formal model of the roadterm terminal toolkit (src/roadterm/term.py).

The embedding is shallow: every method that writes to the output stream is
modelled as a pure function returning the exact text it writes, and the
stateful widgets (ProgressBar, Spinner) are modelled as functions from a
state to a (new state, written text) pair.  Python integers are `Int`, and
Python string helpers (`*`, `ljust`, `split`, `int`, the `:5.1f` format)
are modelled by the `py*` functions below, each faithful to the Python
semantics at the argument shapes the source uses.

The IEEE-754 binary64 arithmetic inside ProgressBar.update is modelled by
`roundDbl`, correct rounding of an exact rational to 53 significant bits
(round-to-nearest, ties to even, with the subnormal quantum clamp at
2^-1074): every double is an exact rational, and each CPython float
operation the source performs (`int / int` true division, `int * float`
multiplication, `float * int` multiplication) produces the correctly
rounded value of the exact result, which is `roundDbl` applied to the
exact rational — see the doc comment of `ProgressBar.update` for the
per-operation mapping.  `roundDbl` has no overflow: CPython raises
OverflowError (or produces an infinity) once a result reaches 2^1024,
which the magnitude hypotheses of the ProgressBar theorems keep out of
range, so the model and the program agree on the theorems' domains.
-/

namespace Roadterm

/-- Python string repetition `s * n` for a natural count: `n` copies of `s`. -/
def pyRepeatN (s : String) : Nat → String
  | 0 => ""
  | n + 1 => s ++ pyRepeatN s n

/-- Python string repetition `s * n` for an `int` count: negative counts give `""`. -/
def pyRepeat (s : String) (n : Int) : String := pyRepeatN s n.toNat

/-- Python `s.ljust(w)`: pad on the right with spaces up to width `w`, never truncate. -/
def pyLjust (s : String) (w : Int) : String := s ++ pyRepeat " " (w - (s.length : Int))

/-- Python `int(s)` restricted to strings of decimal digits (the only use in the
source is on the digit strings stored in `Color`). -/
def pyInt (s : String) : Nat := s.data.foldl (fun acc ch => acc * 10 + (ch.toNat - 48)) 0

/-- Python `content.split(sep)` for the single-character separator, over a char list;
`acc` is the (reversed) current chunk. -/
def pySplitAux (sep : Char) : List Char → List Char → List String
  | [], acc => [String.mk acc.reverse]
  | c :: rest, acc =>
    if c = sep then String.mk acc.reverse :: pySplitAux sep rest []
    else pySplitAux sep rest (c :: acc)

/-- Python `content.split("\n")`. -/
def pySplitNl (s : String) : List String := pySplitAux '\n' s.data []

/-- Python `int(x)` on a number: truncation toward zero. -/
def pyTrunc (q : ℚ) : Int := Int.tdiv q.num q.den

/-- Rounding to the nearest integer with ties to even, the rounding used by
Python's fixed-point float formatting (exact here, since the embedding keeps
the arithmetic over `ℚ`). -/
def roundHalfEven (x : ℚ) : Int :=
  let f := ⌊x⌋
  let r := x - (f : ℚ)
  if r < 1 / 2 then f
  else if 1 / 2 < r then f + 1
  else if f % 2 = 0 then f else f + 1

/-- IEEE-754 binary64 rounding of an exact rational value: round to the
nearest representable double (53 significant bits; quantum never below
2^-1074, the subnormal limit), ties to even.  For a non-zero `q` with
`e = ⌊log₂ |q|⌋`, the doubles around `q` are the integer multiples of
`2^(max (e-52) (-1074))`, and `q` is rounded to the nearest such multiple
with `roundHalfEven`.  Overflow to infinity is not modelled; the
ProgressBar theorems keep every intermediate below 2^1024 where this
function is exactly the binary64 rounding. -/
def roundDbl (q : ℚ) : ℚ :=
  if q = 0 then 0
  else
    ((roundHalfEven (q * (2 : ℚ) ^ (-(max (Int.log 2 |q| - 52) (-1074)))) : ℤ) : ℚ)
      * (2 : ℚ) ^ (max (Int.log 2 |q| - 52) (-1074))

/-- Python `f"{x:.1f}"`: one digit after the decimal point.  CPython formats
the exact binary value of the double with correct rounding (David Gay's
algorithm, ties to even), which over the double's exact rational value is
`roundHalfEven` of ten times the value. -/
def fmtFixed1 (q : ℚ) : String :=
  let n := roundHalfEven (q * 10)
  let m := n.natAbs
  (if n < 0 then "-" else "") ++ toString (m / 10) ++ "." ++ toString (m % 10)

/-- Python `f"{x:5.1f}"`: one decimal digit, right-aligned in a field of
minimal width 5 (space padding on the left). -/
def pyFormat51 (q : ℚ) : String :=
  let s := fmtFixed1 q
  pyRepeatN " " (5 - s.length) ++ s

/-- The Color enumeration of term.py (lines 16-33). -/
inductive Color
  | BLACK | RED | GREEN | YELLOW | BLUE | MAGENTA | CYAN | WHITE | DEFAULT
  | BRIGHT_BLACK | BRIGHT_RED | BRIGHT_GREEN | BRIGHT_YELLOW | BRIGHT_BLUE
  | BRIGHT_MAGENTA | BRIGHT_CYAN | BRIGHT_WHITE
deriving DecidableEq

/-- The string payload of each Color member, exactly as in the source. -/
def Color.value : Color → String
  | .BLACK => "30"
  | .RED => "31"
  | .GREEN => "32"
  | .YELLOW => "33"
  | .BLUE => "34"
  | .MAGENTA => "35"
  | .CYAN => "36"
  | .WHITE => "37"
  | .DEFAULT => "39"
  | .BRIGHT_BLACK => "90"
  | .BRIGHT_RED => "91"
  | .BRIGHT_GREEN => "92"
  | .BRIGHT_YELLOW => "93"
  | .BRIGHT_BLUE => "94"
  | .BRIGHT_MAGENTA => "95"
  | .BRIGHT_CYAN => "96"
  | .BRIGHT_WHITE => "97"

/-- The Style enumeration of term.py (lines 36-45). -/
inductive Style
  | RESET | BOLD | DIM | ITALIC | UNDERLINE | BLINK | REVERSE | HIDDEN
  | STRIKETHROUGH
deriving DecidableEq

/-- The string payload of each Style member, exactly as in the source. -/
def Style.value : Style → String
  | .RESET => "0"
  | .BOLD => "1"
  | .DIM => "2"
  | .ITALIC => "3"
  | .UNDERLINE => "4"
  | .BLINK => "5"
  | .REVERSE => "7"
  | .HIDDEN => "8"
  | .STRIKETHROUGH => "9"

/-- A Terminal is bound to a stream; the only observable the escape logic
depends on is the `is_tty` snapshot taken at construction (line 60). -/
structure Terminal where
  is_tty : Bool
deriving DecidableEq

namespace Terminal

/-- ESC constant (line 55). -/
def ESC : String := "\x1b"

/-- CSI constant (line 56). -/
def CSI : String := ESC ++ "["

/-- Line 80-83: escape builder, empty on a non-TTY stream. -/
def _escape (t : Terminal) (code : String) : String :=
  if t.is_tty then CSI ++ code else ""

/-- Lines 95-96: `move` writes an absolute, 1-based cursor position sequence.
The returned string is the text written to the stream. -/
def move (t : Terminal) (row col : Int) : String :=
  t._escape (toString (row + 1) ++ ";" ++ toString (col + 1) ++ "H")

/-- Lines 85-87: `clear` writes the clear-screen escape, then the output of `move 0 0`. -/
def clear (t : Terminal) : String :=
  t._escape "2J" ++ t.move 0 0

/-- Lines 89-90. -/
def clear_line (t : Terminal) : String := t._escape "2K"

/-- Lines 92-93. -/
def clear_to_end (t : Terminal) : String := t._escape "0J"

/-- Lines 98-99. -/
def move_up (t : Terminal) (n : Int) : String := t._escape (toString n ++ "A")

/-- Lines 101-102. -/
def move_down (t : Terminal) (n : Int) : String := t._escape (toString n ++ "B")

/-- Lines 104-105. -/
def move_right (t : Terminal) (n : Int) : String := t._escape (toString n ++ "C")

/-- Lines 107-108. -/
def move_left (t : Terminal) (n : Int) : String := t._escape (toString n ++ "D")

/-- Lines 110-111. -/
def move_to_column (t : Terminal) (col : Int) : String :=
  t._escape (toString (col + 1) ++ "G")

/-- Lines 113-114. -/
def save_cursor (t : Terminal) : String := t._escape "s"

/-- Lines 116-117. -/
def restore_cursor (t : Terminal) : String := t._escape "u"

/-- Lines 119-120. -/
def hide_cursor (t : Terminal) : String := t._escape "?25l"

/-- Lines 122-123. -/
def show_cursor (t : Terminal) : String := t._escape "?25h"

/-- Lines 125-126: `set_title` writes unconditionally, with no `is_tty` check. -/
def set_title (_t : Terminal) (title : String) : String :=
  ESC ++ "]0;" ++ title ++ "\x07"

/-- Lines 128-129: `bell` writes unconditionally, with no `is_tty` check. -/
def bell (_t : Terminal) : String := "\x07"

/-- Lines 131-135: semicolon-joined SGR sequence for a tuple of styles. -/
def style (t : Terminal) (styles : List Style) : String :=
  if t.is_tty = false then ""
  else
    let codes := String.intercalate ";" (styles.map Style.value)
    CSI ++ codes ++ "m"

/-- Lines 137-140. -/
def fg (t : Terminal) (color : Color) : String :=
  if t.is_tty = false then ""
  else CSI ++ color.value ++ "m"

/-- Lines 142-146: the background code is `str(int(color.value) + 10)`. -/
def bg (t : Terminal) (color : Color) : String :=
  if t.is_tty = false then ""
  else
    let code := toString (pyInt color.value + 10)
    CSI ++ code ++ "m"

/-- Lines 148-151. -/
def rgb_fg (t : Terminal) (r g b : Int) : String :=
  if t.is_tty = false then ""
  else CSI ++ "38;2;" ++ toString r ++ ";" ++ toString g ++ ";" ++ toString b ++ "m"

/-- Lines 153-156. -/
def rgb_bg (t : Terminal) (r g b : Int) : String :=
  if t.is_tty = false then ""
  else CSI ++ "48;2;" ++ toString r ++ ";" ++ toString g ++ ";" ++ toString b ++ "m"

/-- Lines 158-161. -/
def reset (t : Terminal) : String :=
  if t.is_tty = false then "" else CSI ++ "0m"

/-- Lines 163-173.  `fgc`/`bgc` are the optional `fg`/`bg` keyword arguments
(`None` is `none`; every Color member is truthy in Python since its payload is
a non-empty string), `styles` the variadic tail.  The `pre` accumulator is the
source's `prefix` variable. -/
def colored (t : Terminal) (text : String) (fgc bgc : Option Color)
    (styles : List Style) : String :=
  if t.is_tty = false then text
  else
    let pre :=
      (if styles.isEmpty then "" else t.style styles)
        ++ (match fgc with | some c => t.fg c | none => "")
        ++ (match bgc with | some c => t.bg c | none => "")
    pre ++ text ++ t.reset

end Terminal

/-- ProgressBar state (lines 176-182): `total` and `width` are fixed at
construction, `current` and `started` mutate across `update` calls. -/
structure ProgressBar where
  total : Int
  width : Int
  term : Terminal
  current : Int
  started : Bool
deriving DecidableEq

/-- Lines 177-182: constructor, `current = 0`, `_started = False`. -/
def ProgressBar.init (total : Int) (width : Int) (term : Terminal) : ProgressBar :=
  { total := total, width := width, term := term, current := 0, started := false }

/-- Lines 184-204: one `update` call.  Returns the new state and the full text
written to the stream during the call (the `move_up`/`clear_line` escapes when
redrawing, then the bar line and the newline from `writeln`).

Float semantics, mapped operation by operation onto `roundDbl` (each double
is carried as its exact rational value):
* `pct = self.current / self.total` — CPython `int / int` true division
  computes the correctly rounded double of the exact quotient:
  `roundDbl (cur / total)`;
* `int(self.width * pct)` — `int * float` converts the int to a double
  (one rounding) and multiplies (one rounding), then `int()` truncates
  toward zero: `pyTrunc (roundDbl (roundDbl width * pct))`;
* `pct * 100` — `float * int` converts `100` to a double (exact here, but
  written as `roundDbl 100` to keep the op-for-op mapping) and multiplies:
  `roundDbl (pct * roundDbl 100)`;
* when `total ≤ 0`, Python's `pct` is the integer `0` and the line is
  computed with integer arithmetic; the roundings below are identities on
  the resulting zeros, so the one formula covers both paths. -/
def ProgressBar.update (pb : ProgressBar) (current : Option Int) (message : String) :
    ProgressBar × String :=
  let cur : Int := match current with | some c => c | none => pb.current + 1
  let pre : String := if pb.started then pb.term.move_up 1 ++ pb.term.clear_line else ""
  let pct : ℚ := if pb.total > 0 then roundDbl ((cur : ℚ) / (pb.total : ℚ)) else 0
  let filled : Int := pyTrunc (roundDbl (roundDbl (pb.width : ℚ) * pct))
  let bar : String := pyRepeat "█" filled ++ pyRepeat "░" (pb.width - filled)
  let line : String := "[" ++ bar ++ "] " ++ pyFormat51 (roundDbl (pct * roundDbl 100)) ++ "%"
  let line : String := if message = "" then line else line ++ " " ++ message
  ({ pb with current := cur, started := true }, pre ++ line ++ "\n")

/-- The filled-glyph count `int(self.width * pct)` computed by `update` when
`total > 0`, as a function of the three integers (used to state the
ProgressBar theorems). -/
def floatFilled (width cur total : Int) : Int :=
  pyTrunc (roundDbl (roundDbl (width : ℚ) * roundDbl ((cur : ℚ) / (total : ℚ))))

/-- The double `pct * 100` formatted by `update` when `total > 0`, as a
function of the two integers. -/
def floatPct100 (cur total : Int) : ℚ :=
  roundDbl (roundDbl ((cur : ℚ) / (total : ℚ)) * roundDbl 100)

/-- Lines 206-207: `finish` delegates to `update(self.total, message)`. -/
def ProgressBar.finish (pb : ProgressBar) (message : String) : ProgressBar × String :=
  pb.update (some pb.total) message

/-- The state reached after a sequence of `update` calls, each given by its
optional `current` argument and its `message` (outputs discarded). -/
def ProgressBar.applyUpdates (pb : ProgressBar) : List (Option Int × String) → ProgressBar
  | [] => pb
  | u :: rest => ProgressBar.applyUpdates ((pb.update u.1 u.2).1) rest

/-- The shape of one progress line, `[<bar>] <pct>% <message>`, exactly as
assembled by `ProgressBar.update` (lines 200-202): the percentage field is
followed by a space and the message only when the message is non-empty. -/
def renderedLine (bar : String) (pct : String) (message : String) : String :=
  let line := "[" ++ bar ++ "] " ++ pct ++ "%"
  if message = "" then line else line ++ " " ++ message

/-- The numeric ANSI foreground parameter of each Color, i.e. the number whose
decimal numeral is the member's string payload. -/
def colorCode : Color → Nat
  | .BLACK => 30
  | .RED => 31
  | .GREEN => 32
  | .YELLOW => 33
  | .BLUE => 34
  | .MAGENTA => 35
  | .CYAN => 36
  | .WHITE => 37
  | .DEFAULT => 39
  | .BRIGHT_BLACK => 90
  | .BRIGHT_RED => 91
  | .BRIGHT_GREEN => 92
  | .BRIGHT_YELLOW => 93
  | .BRIGHT_BLUE => 94
  | .BRIGHT_MAGENTA => 95
  | .BRIGHT_CYAN => 96
  | .BRIGHT_WHITE => 97

/-- Spinner state (lines 210-217). -/
structure Spinner where
  message : String
  term : Terminal
  frame : Nat
  running : Bool
deriving DecidableEq

/-- Line 211: the fixed 10-glyph Braille animation frames. -/
def Spinner.FRAMES : List String :=
  ["⠋", "⠙", "⠹", "⠸", "⠼", "⠴", "⠦", "⠧", "⠇", "⠏"]

/-- Lines 213-217: constructor, `_frame = 0`, `_running = False`. -/
def Spinner.init (message : String) (term : Terminal) : Spinner :=
  { message := message, term := term, frame := 0, running := false }

/-- Lines 219-224: one `spin` call: column reset, clear line, write
`<frame glyph> <message>`, advance the counter.  Returns the new state and
the text written. -/
def Spinner.spin (s : Spinner) : Spinner × String :=
  let frameGlyph := Spinner.FRAMES.getD (s.frame % Spinner.FRAMES.length) ""
  ({ s with frame := s.frame + 1 },
    s.term.move_to_column 0 ++ s.term.clear_line ++ frameGlyph ++ " " ++ s.message)

/-- Lines 226-230: `stop` clears the line and optionally writes a check-marked
message line (`message=None` is `none`; a non-empty string is truthy). -/
def Spinner.stop (s : Spinner) (message : Option String) : Spinner × String :=
  let out := s.term.move_to_column 0 ++ s.term.clear_line
  match message with
  | some m => if m = "" then (s, out) else (s, out ++ "✓ " ++ m ++ "\n")
  | none => (s, out)

/-- The state reached from `s` after `n` calls to `spin` (outputs discarded). -/
def Spinner.iterate (s : Spinner) : Nat → Spinner
  | 0 => s
  | n + 1 => (Spinner.iterate s n).spin.1

namespace Box

/-- Lines 234-239: the style table, as an association list in source order. -/
def STYLES : List (String × (String × String × String × String × String × String)) :=
  [ ("single", ("┌", "┐", "└", "┘", "─", "│")),
    ("double", ("╔", "╗", "╚", "╝", "═", "║")),
    ("rounded", ("╭", "╮", "╰", "╯", "─", "│")),
    ("heavy", ("┏", "┓", "┗", "┛", "━", "┃")) ]

/-- Line 244: `Box.STYLES.get(style, Box.STYLES["single"])`. -/
def styleGet (style : String) : String × String × String × String × String × String :=
  (STYLES.lookup style).getD ("┌", "┐", "└", "┘", "─", "│")

/-- Lines 241-257 up to the final join: the `result` list of rendered lines.
`width` is the optional `width` argument; Python's `width or max_len + 4`
falls back when `width` is `None` or `0`. -/
def drawLines (content : String) (width : Option Int) (style : String) : List String :=
  let g := styleGet style
  let tl := g.1
  let tr := g.2.1
  let bl := g.2.2.1
  let br := g.2.2.2.1
  let h := g.2.2.2.2.1
  let v := g.2.2.2.2.2
  let lines := pySplitNl content
  let max_len : Nat := (lines.map String.length).foldl Nat.max 0
  let w : Int := match width with
    | none => (max_len : Int) + 4
    | some w0 => if w0 = 0 then (max_len : Int) + 4 else w0
  let inner_width : Int := w - 2
  [tl ++ pyRepeat h inner_width ++ tr]
    ++ lines.map (fun line => v ++ pyLjust line inner_width ++ v)
    ++ [bl ++ pyRepeat h inner_width ++ br]

/-- Line 258: `draw` returns the rendered lines joined with newlines.  It is a
pure function of its inputs (the unused `term` parameter performs no I/O). -/
def draw (content : String) (width : Option Int) (style : String) : String :=
  String.intercalate "\n" (drawLines content width style)

end Box

/-! Helper lemmas about the Python-primitive models. -/

/-- Repetition produces a string of `n * s.length` characters. -/
lemma length_pyRepeatN (s : String) (n : Nat) : (pyRepeatN s n).length = n * s.length := by
  induction n with
  | zero => simp [pyRepeatN]
  | succ k ih => simp [pyRepeatN, ih]; ring

/-- Repetition with an `int` count produces `n.toNat * s.length` characters. -/
lemma length_pyRepeat (s : String) (n : Int) :
    (pyRepeat s n).length = n.toNat * s.length := length_pyRepeatN s n.toNat

/-- A non-positive repetition count yields the empty string, as in Python. -/
lemma pyRepeat_nonpos (s : String) {n : Int} (h : n ≤ 0) : pyRepeat s n = "" := by
  unfold pyRepeat
  rw [Int.toNat_of_nonpos h]
  rfl

/-- On a non-negative rational, truncation toward zero agrees with the floor. -/
lemma pyTrunc_eq_floor (q : ℚ) (h : 0 ≤ q) : pyTrunc q = ⌊q⌋ := by
  rw [pyTrunc, Rat.floor_def]
  exact Int.tdiv_eq_ediv (Rat.num_nonneg.mpr h) (by positivity)

/-- Truncation of an integer is that integer. -/
lemma pyTrunc_intCast (n : ℤ) : pyTrunc ((n : ℤ) : ℚ) = n := by
  simp [pyTrunc, Rat.num_intCast, Rat.den_intCast]

/-- Rounding an integer point returns it unchanged. -/
lemma roundHalfEven_intCast (n : ℤ) : roundHalfEven ((n : ℤ) : ℚ) = n := by
  simp [roundHalfEven, Int.floor_intCast]

/-- The round-to-nearest-even value is at least the floor. -/
lemma floor_le_roundHalfEven (x : ℚ) : ⌊x⌋ ≤ roundHalfEven x := by
  simp only [roundHalfEven]
  split_ifs <;> omega

/-- The round-to-nearest-even value is at most the floor plus one. -/
lemma roundHalfEven_le_floor_add_one (x : ℚ) : roundHalfEven x ≤ ⌊x⌋ + 1 := by
  simp only [roundHalfEven]
  split_ifs <;> omega

/-- Round-to-nearest-even is weakly monotone. -/
lemma roundHalfEven_mono {x y : ℚ} (h : x ≤ y) :
    roundHalfEven x ≤ roundHalfEven y := by
  rcases lt_or_le ⌊x⌋ ⌊y⌋ with hf | hf
  · calc roundHalfEven x ≤ ⌊x⌋ + 1 := roundHalfEven_le_floor_add_one x
      _ ≤ ⌊y⌋ := by omega
      _ ≤ roundHalfEven y := floor_le_roundHalfEven y
  · have hfe : ⌊x⌋ = ⌊y⌋ := le_antisymm (Int.floor_le_floor h) hf
    have hfx : (⌊x⌋ : ℚ) ≤ x := Int.floor_le x
    have hfy : (⌊y⌋ : ℚ) ≤ y := Int.floor_le y
    simp only [roundHalfEven, hfe]
    split_ifs <;> first | omega | linarith

/-- Rounding a non-negative value gives a non-negative result. -/
lemma roundHalfEven_nonneg {x : ℚ} (h : 0 ≤ x) : 0 ≤ roundHalfEven x :=
  le_trans (Int.floor_nonneg.mpr h) (floor_le_roundHalfEven x)

/-- Rounding an integer times a power of two returns it unchanged. -/
lemma roundHalfEven_int_mul (n : ℤ) (k : ℕ) :
    roundHalfEven ((n : ℚ) * 2 ^ k) = n * 2 ^ k := by
  rw [show ((n : ℚ) * 2 ^ k) = (((n * 2 ^ k : ℤ)) : ℚ) by push_cast; ring]
  exact roundHalfEven_intCast _

/-- Evaluation of `roundHalfEven` below the midpoint. -/
lemma roundHalfEven_eq_floor_of (x : ℚ) (f : ℤ) (h1 : (f : ℚ) ≤ x)
    (h2 : x < (f : ℚ) + 1 / 2) : roundHalfEven x = f := by
  have hf : ⌊x⌋ = f := Int.floor_eq_iff.mpr ⟨h1, by linarith⟩
  simp only [roundHalfEven, hf]
  rw [if_pos (by linarith)]

/-- Evaluation of `roundHalfEven` above the midpoint. -/
lemma roundHalfEven_eq_succ_of (x : ℚ) (f : ℤ) (h1 : (f : ℚ) + 1 / 2 < x)
    (h2 : x < (f : ℚ) + 1) : roundHalfEven x = f + 1 := by
  have hf : ⌊x⌋ = f := Int.floor_eq_iff.mpr ⟨by linarith, by linarith⟩
  simp only [roundHalfEven, hf]
  rw [if_neg (by linarith), if_pos (by linarith)]

/-- Binary64 rounding fixes zero. -/
lemma roundDbl_zero : roundDbl 0 = 0 := by simp [roundDbl]

/-- Binary64 rounding preserves non-negativity. -/
lemma roundDbl_nonneg {q : ℚ} (h : 0 ≤ q) : 0 ≤ roundDbl q := by
  unfold roundDbl
  split_ifs with h0
  · exact le_refl 0
  · have h1 : 0 ≤ roundHalfEven (q * (2 : ℚ) ^ (-(max (Int.log 2 |q| - 52) (-1074)))) :=
      roundHalfEven_nonneg (mul_nonneg h (zpow_nonneg (by norm_num) _))
    exact mul_nonneg (by exact_mod_cast h1) (zpow_nonneg (by norm_num) _)

/-- A non-negative value below an integer `n ≤ 2^53` rounds to at most `n`:
such an `n` lies on the rounding grid of every binade at or below `2^53`, so
by monotonicity of the tie-to-even rounding nothing below it can round past
it. -/
lemma roundDbl_le_intCast {q : ℚ} {n : ℤ} (hq : 0 ≤ q) (hqn : q ≤ (n : ℚ))
    (hn : n ≤ 2 ^ 53) : roundDbl q ≤ (n : ℚ) := by
  have hn0 : (0 : ℚ) ≤ (n : ℚ) := le_trans hq hqn
  rcases eq_or_lt_of_le hq with h0 | h0
  · rw [← h0, roundDbl_zero]
    exact hn0
  · unfold roundDbl
    rw [if_neg (ne_of_gt h0), abs_of_pos h0]
    set e := Int.log 2 q with he
    set quant := max (e - 52) (-1074) with hquant
    rcases le_or_lt quant 0 with hquant0 | hquant1
    · set k : ℕ := (-quant).toNat with hk
      have hkz : (k : ℤ) = -quant := by rw [hk]; exact Int.toNat_of_nonneg (by omega)
      have h2 : (2 : ℚ) ^ (-quant) = 2 ^ k := by
        rw [← zpow_natCast (2 : ℚ) k, hkz]
      have hmono : roundHalfEven (q * (2 : ℚ) ^ (-quant)) ≤ (n * 2 ^ k : ℤ) := by
        rw [← roundHalfEven_int_mul n k, h2]
        exact roundHalfEven_mono
          (mul_le_mul_of_nonneg_right hqn (pow_nonneg (by norm_num) _))
      calc ((roundHalfEven (q * (2 : ℚ) ^ (-quant)) : ℤ) : ℚ) * 2 ^ quant
          ≤ ((n * 2 ^ k : ℤ) : ℚ) * 2 ^ quant := by
            apply mul_le_mul_of_nonneg_right _ (zpow_nonneg (by norm_num) _)
            exact_mod_cast hmono
        _ = (n : ℚ) * ((2 : ℚ) ^ (k : ℤ) * 2 ^ quant) := by
            push_cast
            rw [zpow_natCast]
            ring
        _ = (n : ℚ) := by
            rw [← zpow_add₀ (by norm_num : (2 : ℚ) ≠ 0),
              show (k : ℤ) + quant = 0 by omega, zpow_zero, mul_one]
    · have h53 : 53 ≤ e := by
        by_contra hcon
        push_neg at hcon
        have : quant ≤ 0 := by
          rw [hquant]
          apply max_le <;> omega
        omega
      have hle : (2 : ℚ) ^ e ≤ q := by
        rw [he]
        exact Int.zpow_log_le_self (by norm_num) h0
      have h2_53 : (2 : ℚ) ^ (53 : ℤ) ≤ (2 : ℚ) ^ e :=
        zpow_le_zpow_right₀ (by norm_num) h53
      have hqn53 : q ≤ (2 : ℚ) ^ (53 : ℤ) := by
        refine le_trans hqn ?_
        calc (n : ℚ) ≤ ((2 ^ 53 : ℤ) : ℚ) := by exact_mod_cast hn
          _ = (2 : ℚ) ^ (53 : ℤ) := by norm_num
      have hq53 : q = (2 : ℚ) ^ (53 : ℤ) := le_antisymm hqn53 (le_trans h2_53 hle)
      have he53 : e = 53 := by
        rw [he, hq53, show ((2 : ℚ) ^ (53 : ℤ)) = (((2 : ℕ) : ℚ) ^ (53 : ℤ)) by norm_num]
        exact Int.log_zpow (by norm_num) 53
      have hq1 : quant = 1 := by omega
      rw [hq1, hq53]
      have harg : (2 : ℚ) ^ (53 : ℤ) * (2 : ℚ) ^ (-(1 : ℤ)) = (((2 ^ 52 : ℤ)) : ℚ) := by
        norm_num
      rw [harg, roundHalfEven_intCast]
      calc (((2 ^ 52 : ℤ)) : ℚ) * (2 : ℚ) ^ (1 : ℤ) = (2 : ℚ) ^ (53 : ℤ) := by norm_num
        _ ≤ (n : ℚ) := by rw [← hq53]; exact hqn

/-- A value above an integer `0 ≤ n ≤ 2^53` rounds to at least `n`, the
mirror image of `roundDbl_le_intCast`. -/
lemma intCast_le_roundDbl {q : ℚ} {n : ℤ} (hn0 : 0 ≤ n) (hn : n ≤ 2 ^ 53)
    (hnq : (n : ℚ) ≤ q) : (n : ℚ) ≤ roundDbl q := by
  rcases eq_or_lt_of_le hn0 with h0 | h0
  · rw [← h0]
    exact_mod_cast roundDbl_nonneg (le_trans (by exact_mod_cast h0.le) hnq)
  · have hq1 : (1 : ℚ) ≤ q := le_trans (by exact_mod_cast h0) hnq
    have hqpos : (0 : ℚ) < q := lt_of_lt_of_le zero_lt_one hq1
    unfold roundDbl
    rw [if_neg (ne_of_gt hqpos), abs_of_pos hqpos]
    set e := Int.log 2 q with he
    set quant := max (e - 52) (-1074) with hquant
    rcases le_or_lt quant 0 with hquant0 | hquant1
    · set k : ℕ := (-quant).toNat with hk
      have hkz : (k : ℤ) = -quant := by rw [hk]; exact Int.toNat_of_nonneg (by omega)
      have h2 : (2 : ℚ) ^ (-quant) = 2 ^ k := by
        rw [← zpow_natCast (2 : ℚ) k, hkz]
      have hmono : (n * 2 ^ k : ℤ) ≤ roundHalfEven (q * (2 : ℚ) ^ (-quant)) := by
        rw [← roundHalfEven_int_mul n k, h2]
        exact roundHalfEven_mono
          (mul_le_mul_of_nonneg_right hnq (pow_nonneg (by norm_num) _))
      calc (n : ℚ) = (n : ℚ) * ((2 : ℚ) ^ (k : ℤ) * 2 ^ quant) := by
            rw [← zpow_add₀ (by norm_num : (2 : ℚ) ≠ 0),
              show (k : ℤ) + quant = 0 by omega, zpow_zero, mul_one]
        _ = ((n * 2 ^ k : ℤ) : ℚ) * 2 ^ quant := by
            push_cast
            rw [zpow_natCast]
            ring
        _ ≤ ((roundHalfEven (q * (2 : ℚ) ^ (-quant)) : ℤ) : ℚ) * 2 ^ quant := by
            apply mul_le_mul_of_nonneg_right _ (zpow_nonneg (by norm_num) _)
            exact_mod_cast hmono
    · have h53 : 53 ≤ e := by
        by_contra hcon
        push_neg at hcon
        have : quant ≤ 0 := by
          rw [hquant]
          apply max_le <;> omega
        omega
      have hle : (2 : ℚ) ^ e ≤ q := by
        rw [he]
        exact Int.zpow_log_le_self (by norm_num) hqpos
      have hy : ((2 ^ 52 : ℤ) : ℚ) ≤ q * (2 : ℚ) ^ (-quant) := by
        have step : (2 : ℚ) ^ e * (2 : ℚ) ^ (-quant) = ((2 ^ 52 : ℤ) : ℚ) := by
          rw [← zpow_add₀ (by norm_num : (2 : ℚ) ≠ 0), show e + -quant = 52 by omega]
          norm_num
        rw [← step]
        exact mul_le_mul_of_nonneg_right hle (zpow_nonneg (by norm_num) _)
      have hrhe : (2 ^ 52 : ℤ) ≤ roundHalfEven (q * (2 : ℚ) ^ (-quant)) := by
        have hmono := roundHalfEven_mono hy
        rwa [roundHalfEven_intCast] at hmono
      calc (n : ℚ) ≤ ((2 ^ 53 : ℤ) : ℚ) := by exact_mod_cast hn
        _ ≤ ((2 ^ 52 : ℤ) : ℚ) * (2 : ℚ) ^ quant := by
            have h1 : ((2 ^ 53 : ℤ) : ℚ) = ((2 ^ 52 : ℤ) : ℚ) * (2 : ℚ) ^ (1 : ℤ) := by
              norm_num
            rw [h1]
            apply mul_le_mul_of_nonneg_left _ (by positivity)
            exact zpow_le_zpow_right₀ (by norm_num) (by omega)
        _ ≤ ((roundHalfEven (q * (2 : ℚ) ^ (-quant)) : ℤ) : ℚ) * 2 ^ quant := by
            apply mul_le_mul_of_nonneg_right _ (zpow_nonneg (by norm_num) _)
            exact_mod_cast hrhe

/-- Every dyadic rational with a 53-bit significand and exponent at or above
the subnormal quantum is a double, hence fixed by the rounding. -/
lemma roundDbl_dyadic (m k : ℤ) (hm : m.natAbs ≤ 2 ^ 53) (hk : -1074 ≤ k) :
    roundDbl ((m : ℚ) * 2 ^ k) = (m : ℚ) * 2 ^ k := by
  rcases eq_or_ne m 0 with rfl | hm0
  · simp [roundDbl_zero]
  · have hq0 : ((m : ℚ) * 2 ^ k) ≠ 0 :=
      mul_ne_zero (by exact_mod_cast hm0) (zpow_ne_zero _ (by norm_num))
    have habs : |(m : ℚ) * 2 ^ k| = ((m.natAbs : ℤ) : ℚ) * 2 ^ k := by
      rw [abs_mul, abs_of_pos (zpow_pos (by norm_num : (0 : ℚ) < 2) k)]
      congr 1
      rw [← Int.cast_abs, Int.abs_eq_natAbs]
    have habspos : (0 : ℚ) < |(m : ℚ) * 2 ^ k| := abs_pos.mpr hq0
    have hub : |(m : ℚ) * 2 ^ k| ≤ (2 : ℚ) ^ (53 + k) := by
      rw [habs]
      calc ((m.natAbs : ℤ) : ℚ) * 2 ^ k ≤ ((2 ^ 53 : ℤ) : ℚ) * 2 ^ k := by
            apply mul_le_mul_of_nonneg_right _ (zpow_nonneg (by norm_num) _)
            exact_mod_cast hm
        _ = (2 : ℚ) ^ (53 : ℤ) * 2 ^ k := by norm_num
        _ = (2 : ℚ) ^ (53 + k) := by rw [← zpow_add₀ (by norm_num : (2 : ℚ) ≠ 0)]
    have hloge : Int.log 2 |(m : ℚ) * 2 ^ k| ≤ 53 + k := by
      calc Int.log 2 |(m : ℚ) * 2 ^ k| ≤ Int.log 2 ((2 : ℚ) ^ (53 + k)) :=
            Int.log_mono_right habspos hub
        _ = 53 + k := by
            rw [show ((2 : ℚ) ^ (53 + k : ℤ)) = (((2 : ℕ) : ℚ) ^ (53 + k : ℤ)) by norm_num]
            exact Int.log_zpow (by norm_num) _
    unfold roundDbl
    rw [if_neg hq0]
    set e := Int.log 2 |(m : ℚ) * 2 ^ k| with he
    set quant := max (e - 52) (-1074) with hquant
    rcases le_or_lt quant k with hqk | hqk
    · set j : ℕ := (k - quant).toNat with hj
      have hjz : (j : ℤ) = k - quant := by rw [hj]; exact Int.toNat_of_nonneg (by omega)
      have harg : (m : ℚ) * 2 ^ k * (2 : ℚ) ^ (-quant) = (m : ℚ) * 2 ^ j := by
        rw [mul_assoc, ← zpow_add₀ (by norm_num : (2 : ℚ) ≠ 0),
          ← zpow_natCast (2 : ℚ) j, hjz]
        congr 2
      rw [harg, roundHalfEven_int_mul]
      push_cast
      rw [← zpow_natCast (2 : ℚ) j, hjz, mul_assoc,
        ← zpow_add₀ (by norm_num : (2 : ℚ) ≠ 0)]
      congr 2
      omega
    · have hq1074 : quant = e - 52 := by omega
      have he53 : e = k + 53 := by omega
      have hlb : (2 : ℚ) ^ e ≤ |(m : ℚ) * 2 ^ k| :=
        Int.zpow_log_le_self (by norm_num) habspos
      have hm53 : (2 ^ 53 : ℤ) ≤ (m.natAbs : ℤ) := by
        have h1 : (2 : ℚ) ^ (k + 53 : ℤ) ≤ ((m.natAbs : ℤ) : ℚ) * 2 ^ k := by
          rw [← habs, ← he53]
          exact hlb
        have h2 : (2 : ℚ) ^ (k + 53 : ℤ) = ((2 ^ 53 : ℤ) : ℚ) * 2 ^ k := by
          rw [show ((2 ^ 53 : ℤ) : ℚ) = (2 : ℚ) ^ (53 : ℤ) by norm_num,
            ← zpow_add₀ (by norm_num : (2 : ℚ) ≠ 0)]
          ring_nf
        rw [h2] at h1
        have h3 := le_of_mul_le_mul_right h1 (zpow_pos (by norm_num : (0 : ℚ) < 2) k)
        exact_mod_cast h3
      have hmeq : m.natAbs = 2 ^ 53 := le_antisymm hm (by exact_mod_cast hm53)
      have hquantk : quant = k + 1 := by omega
      have hev : m = 2 * (m / 2) := by omega
      have hm2 : (m : ℚ) = ((2 * (m / 2) : ℤ) : ℚ) := by rw [← hev]
      have harg : (m : ℚ) * 2 ^ k * (2 : ℚ) ^ (-quant) = ((m / 2 : ℤ) : ℚ) := by
        rw [mul_assoc, ← zpow_add₀ (by norm_num : (2 : ℚ) ≠ 0),
          show k + -quant = (-1 : ℤ) by omega, hm2,
          show (2 : ℚ) ^ (-(1 : ℤ)) = 1 / 2 by norm_num]
        push_cast
        ring
      rw [harg, roundHalfEven_intCast, hquantk, hm2,
        zpow_add₀ (by norm_num : (2 : ℚ) ≠ 0), zpow_one]
      push_cast
      ring

/-- Every integer of magnitude at most `2^53` is a double. -/
lemma roundDbl_intCast53 (n : ℤ) (hn : n.natAbs ≤ 2 ^ 53) :
    roundDbl ((n : ℤ) : ℚ) = (n : ℚ) := by
  have h := roundDbl_dyadic n 0 hn (by norm_num)
  simpa using h

/-- Evaluation of the rounding at a concrete positive value from its binade
and its rounded significand. -/
lemma roundDbl_eq_of (q : ℚ) (e m : ℤ) (hq : 0 < q)
    (h1 : (2 : ℚ) ^ e ≤ q) (h2 : q < 2 ^ (e + 1)) (he : -1022 ≤ e)
    (hm : roundHalfEven (q * 2 ^ (52 - e)) = m) :
    roundDbl q = (m : ℚ) * 2 ^ (e - 52) := by
  have hb : (1 : ℕ) < 2 := by norm_num
  have hlog : Int.log 2 q = e := by
    apply le_antisymm
    · have := (Int.lt_zpow_iff_log_lt hb hq).mp
        (by rw [show (((2 : ℕ) : ℚ)) = (2 : ℚ) by norm_num]; exact h2)
      omega
    · exact (Int.zpow_le_iff_le_log hb hq).mp
        (by rw [show (((2 : ℕ) : ℚ)) = (2 : ℚ) by norm_num]; exact h1)
  unfold roundDbl
  rw [if_neg (ne_of_gt hq), abs_of_pos hq, hlog,
    show max (e - 52) (-1074) = e - 52 from max_eq_left (by omega),
    show -(e - 52) = 52 - e by ring, hm]

/-- Closed evaluation of the `:5.1f` model from the tie-to-even rounding of
ten times the value. -/
lemma pyFormat51_eq_of (q : ℚ) (n : ℤ) (hq : roundHalfEven (q * 10) = n) (hn : 0 ≤ n) :
    pyFormat51 q =
      pyRepeatN " " (5 - (toString (n.natAbs / 10) ++ "." ++ toString (n.natAbs % 10)).length)
        ++ (toString (n.natAbs / 10) ++ "." ++ toString (n.natAbs % 10)) := by
  have h1 : fmtFixed1 q = toString (n.natAbs / 10) ++ "." ++ toString (n.natAbs % 10) := by
    unfold fmtFixed1
    rw [hq]
    simp [not_lt.mpr hn]
  unfold pyFormat51
  rw [h1]

/-- Left-justification pads to `max` of the original length and the target. -/
lemma length_pyLjust (s : String) (w : Int) :
    (pyLjust s w).length = max s.length w.toNat := by
  unfold pyLjust
  rw [String.length_append, length_pyRepeat]
  simp only [String.length, List.length]
  omega

/-- An `update` call never changes the `total` field. -/
lemma ProgressBar.update_total (pb : ProgressBar) (c : Option Int) (m : String) :
    ((pb.update c m).1).total = pb.total := rfl

/-- No sequence of `update` calls changes the `total` field. -/
lemma ProgressBar.applyUpdates_total (pb : ProgressBar) (ops : List (Option Int × String)) :
    (ProgressBar.applyUpdates pb ops).total = pb.total := by
  induction ops generalizing pb with
  | nil => rfl
  | cons u rest ih => rw [ProgressBar.applyUpdates, ih, ProgressBar.update_total]

/-- After `n` calls to `spin`, only the frame counter has changed, and it has
advanced by exactly `n`. -/
lemma Spinner.iterate_spec (s0 : Spinner) (n : Nat) :
    Spinner.iterate s0 n = { s0 with frame := s0.frame + n } := by
  induction n with
  | zero => simp [Spinner.iterate]
  | succ k ih => simp [Spinner.iterate, ih, Spinner.spin, Nat.add_assoc]

/-! Claim theorems. -/

/-- C1: for every Terminal constructed on a non-interactive (non-TTY) stream,
every escape-producing operation (clear, clear_line, clear_to_end, move,
move_up, move_down, move_left, move_right, move_to_column, save_cursor,
restore_cursor, hide_cursor, show_cursor, style, fg, bg, rgb_fg, rgb_bg,
reset) produces the empty string / writes nothing beyond plain text, and
`colored text fg bg styles` returns `text` unchanged for all arguments. -/
theorem c1_non_tty_silent (t : Terminal) (h : t.is_tty = false)
    (row col n r g b : Int) (text : String) (fgc bgc : Option Color)
    (styles : List Style) (c : Color) :
    t.clear = "" ∧ t.clear_line = "" ∧ t.clear_to_end = "" ∧
    t.move row col = "" ∧ t.move_up n = "" ∧ t.move_down n = "" ∧
    t.move_left n = "" ∧ t.move_right n = "" ∧ t.move_to_column col = "" ∧
    t.save_cursor = "" ∧ t.restore_cursor = "" ∧ t.hide_cursor = "" ∧
    t.show_cursor = "" ∧ t.style styles = "" ∧ t.fg c = "" ∧ t.bg c = "" ∧
    t.rgb_fg r g b = "" ∧ t.rgb_bg r g b = "" ∧ t.reset = "" ∧
    t.colored text fgc bgc styles = text := by
  simp [Terminal.clear, Terminal.clear_line, Terminal.clear_to_end,
    Terminal.move, Terminal.move_up, Terminal.move_down, Terminal.move_left,
    Terminal.move_right, Terminal.move_to_column, Terminal.save_cursor,
    Terminal.restore_cursor, Terminal.hide_cursor, Terminal.show_cursor,
    Terminal.style, Terminal.fg, Terminal.bg, Terminal.rgb_fg,
    Terminal.rgb_bg, Terminal.reset, Terminal.colored, Terminal._escape, h]

/-- Witness for C1 at a concrete non-TTY terminal and concrete arguments. -/
theorem c1_witness :
    (Terminal.mk false).clear = "" ∧ (Terminal.mk false).clear_line = "" ∧
    (Terminal.mk false).clear_to_end = "" ∧
    (Terminal.mk false).move 0 1 = "" ∧ (Terminal.mk false).move_up 2 = "" ∧
    (Terminal.mk false).move_down 2 = "" ∧ (Terminal.mk false).move_left 2 = "" ∧
    (Terminal.mk false).move_right 2 = "" ∧ (Terminal.mk false).move_to_column 1 = "" ∧
    (Terminal.mk false).save_cursor = "" ∧ (Terminal.mk false).restore_cursor = "" ∧
    (Terminal.mk false).hide_cursor = "" ∧ (Terminal.mk false).show_cursor = "" ∧
    (Terminal.mk false).style [Style.BOLD] = "" ∧
    (Terminal.mk false).fg Color.GREEN = "" ∧ (Terminal.mk false).bg Color.GREEN = "" ∧
    (Terminal.mk false).rgb_fg 10 20 30 = "" ∧ (Terminal.mk false).rgb_bg 10 20 30 = "" ∧
    (Terminal.mk false).reset = "" ∧
    (Terminal.mk false).colored "hi" (some Color.RED) (some Color.BLUE) [Style.BOLD] = "hi" :=
  c1_non_tty_silent (Terminal.mk false) rfl 0 1 2 10 20 30 "hi"
    (some Color.RED) (some Color.BLUE) [Style.BOLD] Color.GREEN

/-- C2: on a TTY, `colored "X" (fg := RED)` is exactly `CSI "31m" ++ "X" ++
CSI "0m"`; in general `colored` prefixes the text with the styles sequence,
then the fg sequence, then the bg sequence, in that order (each only when
supplied), and always appends the full SGR reset after the text. -/
theorem c2_tty_colored (t : Terminal) (h : t.is_tty = true) (text : String)
    (fgc bgc : Option Color) (styles : List Style) :
    t.colored "X" (some Color.RED) none [] =
      Terminal.CSI ++ "31m" ++ "X" ++ (Terminal.CSI ++ "0m")
    ∧ t.colored text fgc bgc styles =
        (if styles.isEmpty then "" else t.style styles)
          ++ (match fgc with | some cc => t.fg cc | none => "")
          ++ (match bgc with | some cc => t.bg cc | none => "")
          ++ text ++ (Terminal.CSI ++ "0m") := by
  constructor
  · simp [Terminal.colored, Terminal.fg, Terminal.reset, h]
    decide
  · simp [Terminal.colored, Terminal.reset, h]

/-- Witness for C2 at a concrete TTY terminal and concrete arguments. -/
theorem c2_witness :
    (Terminal.mk true).colored "X" (some Color.RED) none [] =
      Terminal.CSI ++ "31m" ++ "X" ++ (Terminal.CSI ++ "0m")
    ∧ (Terminal.mk true).colored "Y" none (some Color.BLUE) [Style.BOLD] =
        (if ([Style.BOLD] : List Style).isEmpty then ""
          else (Terminal.mk true).style [Style.BOLD])
          ++ (match (none : Option Color) with
              | some cc => (Terminal.mk true).fg cc | none => "")
          ++ (match (some Color.BLUE : Option Color) with
              | some cc => (Terminal.mk true).bg cc | none => "")
          ++ "Y" ++ (Terminal.CSI ++ "0m") :=
  c2_tty_colored (Terminal.mk true) rfl "Y" none (some Color.BLUE) [Style.BOLD]

/-- C6: on a TTY, the numeric SGR parameter emitted by `bg color` is the
numeric parameter emitted by `fg color` plus 10, for every Color; in
particular DEFAULT gives fg 39 and bg 49. -/
theorem c6_bg_eq_fg_plus_ten (t : Terminal) (h : t.is_tty = true) (c : Color) :
    t.fg c = Terminal.CSI ++ toString (colorCode c) ++ "m"
    ∧ t.bg c = Terminal.CSI ++ toString (colorCode c + 10) ++ "m"
    ∧ colorCode Color.DEFAULT = 39 ∧ colorCode Color.DEFAULT + 10 = 49 := by
  refine ⟨?_, ?_, rfl, rfl⟩
  · simp [Terminal.fg, h]
    cases c <;> decide
  · simp [Terminal.bg, h]
    cases c <;> decide

/-- Witness for C6 at a concrete TTY terminal and the DEFAULT color. -/
theorem c6_witness :
    (Terminal.mk true).fg Color.DEFAULT =
      Terminal.CSI ++ toString (colorCode Color.DEFAULT) ++ "m"
    ∧ (Terminal.mk true).bg Color.DEFAULT =
        Terminal.CSI ++ toString (colorCode Color.DEFAULT + 10) ++ "m"
    ∧ colorCode Color.DEFAULT = 39 ∧ colorCode Color.DEFAULT + 10 = 49 :=
  c6_bg_eq_fg_plus_ten (Terminal.mk true) rfl Color.DEFAULT

/-- C9: `set_title` and `bell` write their control bytes (ESC `]0;<title>`
BEL, and BEL) unconditionally: the written text is the same for every
terminal, TTY or not, and is non-empty even on a non-TTY terminal, unlike
the guarded operations (hide_cursor shown as a contrast). -/
theorem c9_set_title_bell_unconditional (t u : Terminal) (title : String) :
    t.set_title title = Terminal.ESC ++ "]0;" ++ title ++ "\x07"
    ∧ t.bell = "\x07"
    ∧ t.set_title title = u.set_title title
    ∧ t.bell = u.bell
    ∧ (Terminal.mk false).set_title "t" ≠ ""
    ∧ (Terminal.mk false).bell ≠ ""
    ∧ (Terminal.mk false).hide_cursor = "" := by
  refine ⟨rfl, rfl, rfl, rfl, by decide, by decide, rfl⟩

/-- C5: starting from a fresh Spinner, the glyph written by the n-th call to
`spin` is `FRAMES[(n-1) % 10]` (the counter advances by one per call, wrapped
modulo the frame count), so the 11th call emits the same text as the 1st. -/
theorem c5_spinner_cycle (message : String) (term : Terminal) (n : Nat) (h : 1 ≤ n) :
    ((Spinner.iterate (Spinner.init message term) (n - 1)).spin).2 =
      term.move_to_column 0 ++ term.clear_line
        ++ Spinner.FRAMES.getD ((n - 1) % 10) "" ++ " " ++ message
    ∧ ((Spinner.iterate (Spinner.init message term) 10).spin).2 =
        ((Spinner.iterate (Spinner.init message term) 0).spin).2
    ∧ Spinner.FRAMES.length = 10 := by
  rw [Spinner.iterate_spec, Spinner.iterate_spec, Spinner.iterate_spec]
  have hl : Spinner.FRAMES.length = 10 := rfl
  refine ⟨?_, ?_, rfl⟩
  · simp [Spinner.spin, Spinner.init, hl]
  · simp [Spinner.spin, Spinner.init, hl]

/-- Witness for C5: the first call on a fresh spinner writes the first frame. -/
theorem c5_witness :
    ((Spinner.iterate (Spinner.init "Loading..." (Terminal.mk true)) 0).spin).2 =
      (Terminal.mk true).move_to_column 0 ++ (Terminal.mk true).clear_line
        ++ Spinner.FRAMES.getD (0 % 10) "" ++ " " ++ "Loading..."
    ∧ ((Spinner.iterate (Spinner.init "Loading..." (Terminal.mk true)) 10).spin).2 =
        ((Spinner.iterate (Spinner.init "Loading..." (Terminal.mk true)) 0).spin).2
    ∧ Spinner.FRAMES.length = 10 :=
  c5_spinner_cycle "Loading..." (Terminal.mk true) 1 (by decide)

/-- C7: on any ProgressBar state reachable from construction, `finish message`
is exactly `update total message` with `total` the construction-time total —
the same state change and the same output — because `update` never mutates
the `total` field. -/
theorem c7_finish_is_update_total (total width : Int) (term : Terminal)
    (ops : List (Option Int × String)) (message : String) :
    (ProgressBar.applyUpdates (ProgressBar.init total width term) ops).finish message
      = (ProgressBar.applyUpdates (ProgressBar.init total width term) ops).update
          (some total) message
    ∧ (ProgressBar.applyUpdates (ProgressBar.init total width term) ops).total = total := by
  have h : (ProgressBar.applyUpdates (ProgressBar.init total width term) ops).total
      = total := ProgressBar.applyUpdates_total (ProgressBar.init total width term) ops
  exact ⟨by rw [ProgressBar.finish, h], h⟩

/-- C8: `Box.draw content width style` splits the content on newlines into N
lines, computes the inner width as `(width or max_line_length + 4) - 2`
(Python truthiness: the explicit width is used unless it is absent or 0),
space-pads every line on the right to the inner width without truncating, and
returns the newline-join of exactly N+2 lines — a top border, one bordered
row per content line, and a bottom border — built from the 6 glyphs of the
named style; in particular `Box.draw "ab\ncde" (style := "double")` has inner
width 5 and produces the 4 double-glyph lines shown. -/
theorem c8_box_draw (content : String) (width : Option Int) (style : String) :
    Box.draw content width style =
      String.intercalate "\n" (Box.drawLines content width style)
    ∧ Box.drawLines content width style =
        [(Box.styleGet style).1
            ++ pyRepeat (Box.styleGet style).2.2.2.2.1
                ((match width with
                  | none => ((((pySplitNl content).map String.length).foldl Nat.max 0 : ℕ) : Int) + 4
                  | some w0 => if w0 = 0 then
                      ((((pySplitNl content).map String.length).foldl Nat.max 0 : ℕ) : Int) + 4
                    else w0) - 2)
            ++ (Box.styleGet style).2.1]
          ++ (pySplitNl content).map (fun line =>
              (Box.styleGet style).2.2.2.2.2
                ++ pyLjust line
                    ((match width with
                      | none => ((((pySplitNl content).map String.length).foldl Nat.max 0 : ℕ) : Int) + 4
                      | some w0 => if w0 = 0 then
                          ((((pySplitNl content).map String.length).foldl Nat.max 0 : ℕ) : Int) + 4
                        else w0) - 2)
                ++ (Box.styleGet style).2.2.2.2.2)
          ++ [(Box.styleGet style).2.2.1
              ++ pyRepeat (Box.styleGet style).2.2.2.2.1
                  ((match width with
                    | none => ((((pySplitNl content).map String.length).foldl Nat.max 0 : ℕ) : Int) + 4
                    | some w0 => if w0 = 0 then
                        ((((pySplitNl content).map String.length).foldl Nat.max 0 : ℕ) : Int) + 4
                      else w0) - 2)
              ++ (Box.styleGet style).2.2.2.1]
    ∧ (Box.drawLines content width style).length = (pySplitNl content).length + 2
    ∧ (∀ (l : String) (w : Int), pyLjust l w = l ++ pyRepeat " " (w - (l.length : Int)))
    ∧ (∀ (l : String) (w : Int), (pyLjust l w).length = max l.length w.toNat)
    ∧ Box.draw "ab\ncde" none "double" = "╔═════╗\n║ab   ║\n║cde  ║\n╚═════╝" := by
  refine ⟨rfl, rfl, ?_, fun l w => rfl, fun l w => length_pyLjust l w, by decide⟩
  simp [Box.drawLines]

/-- C4: for any width, terminal and message, a ProgressBar constructed with
`total = 0` renders `update 0` without raising (the model is a total
function; the division is guarded by the `total > 0` test, and Python
computes the line with integer arithmetic on this path) and the rendered
line shows the percentage `0.0` in the 5-character field. -/
theorem c4_total_zero (width : Int) (term : Terminal) (message : String) :
    ((ProgressBar.init 0 width term).update (some 0) message).2
      = renderedLine (pyRepeat "░" width) "  0.0" message ++ "\n" := by
  have h100 : roundDbl (100 : ℚ) = 100 := by
    rw [show (100 : ℚ) = ((100 : ℤ) : ℚ) by norm_num,
      roundDbl_intCast53 100 (by norm_num)]
  have hfmt : pyFormat51 (roundDbl ((0 : ℚ) * roundDbl 100)) = "  0.0" := by
    rw [h100, zero_mul, roundDbl_zero]
    rw [pyFormat51_eq_of 0 0
      (by rw [zero_mul, show (0 : ℚ) = ((0 : ℤ) : ℚ) by norm_num]
          exact roundHalfEven_intCast 0) le_rfl]
    decide
  have htr : pyTrunc (roundDbl (roundDbl ((width : Int) : ℚ) * 0)) = 0 := by
    rw [mul_zero, roundDbl_zero, show (0 : ℚ) = ((0 : ℤ) : ℚ) by norm_num, pyTrunc_intCast]
  simp only [ProgressBar.update, ProgressBar.init, renderedLine]
  rw [if_neg (by norm_num : ¬ ((0 : Int) > 0))]
  rw [htr, hfmt]
  simp [pyRepeat, pyRepeatN]

/-- C3 counterexample: with total 10 and width 40, `update 15` renders a bar
of 60 filled glyphs and no unfilled glyph, so the bar does not consist of
`width = 40` characters as the unrestricted claim states.  (All the floats
involved are exact here: 15/10 is the double 1.5.) -/
theorem c3_counterexample :
    ((ProgressBar.init 10 40 (Terminal.mk false)).update (some 15) "").2
      = renderedLine (pyRepeatN "█" 60) "150.0" "" ++ "\n"
    ∧ ¬ ((pyRepeatN "█" 60).length = 40) := by
  constructor
  · have h100 : roundDbl (100 : ℚ) = 100 := by
      rw [show (100 : ℚ) = ((100 : ℤ) : ℚ) by norm_num,
        roundDbl_intCast53 100 (by norm_num)]
    have hpct : roundDbl (((15 : Int) : ℚ) / ((10 : Int) : ℚ)) = 3 / 2 := by
      rw [show ((15 : Int) : ℚ) / ((10 : Int) : ℚ) = ((3 : ℤ) : ℚ) * 2 ^ (-1 : ℤ)
        by norm_num]
      rw [roundDbl_dyadic 3 (-1) (by norm_num) (by norm_num)]
      norm_num
    have hfill : pyTrunc (roundDbl (roundDbl ((40 : Int) : ℚ)
        * roundDbl (((15 : Int) : ℚ) / ((10 : Int) : ℚ)))) = 60 := by
      rw [hpct, roundDbl_intCast53 40 (by norm_num),
        show ((40 : ℤ) : ℚ) * (3 / 2 : ℚ) = ((60 : ℤ) : ℚ) by norm_num,
        roundDbl_intCast53 60 (by norm_num), pyTrunc_intCast]
    have hfmt : pyFormat51 (roundDbl (roundDbl (((15 : Int) : ℚ) / ((10 : Int) : ℚ))
        * roundDbl 100)) = "150.0" := by
      rw [hpct, h100, show ((3 : ℚ) / 2) * 100 = ((150 : ℤ) : ℚ) by norm_num,
        roundDbl_intCast53 150 (by norm_num)]
      rw [pyFormat51_eq_of _ 1500
        (by rw [show ((150 : ℤ) : ℚ) * 10 = ((1500 : ℤ) : ℚ) by norm_num]
            exact roundHalfEven_intCast 1500) (by norm_num)]
      decide
    simp only [ProgressBar.update, ProgressBar.init, renderedLine]
    rw [if_pos (by norm_num : (10 : Int) > 0), hfill, hfmt]
    decide
  · decide

/-- C3 (amended): for every ProgressBar with `total > 0` and
`0 ≤ width ≤ 2^53`, and every `update current message` call with
`0 ≤ current ≤ total`, the written text is the redraw escapes followed by
the line `[<bar>] <pct>% <message>`, where the bar is the float-computed
count `int(float(width) * float(current/total))` of filled glyphs — a count
between 0 and `width` that equals `floor (width * current / total)` whenever
the two float roundings involved are exact — followed by unfilled glyphs for
the remainder, `width` characters in all; the percentage is the one-decimal,
5-character-field rendering of the double `current/total * 100`.  In
particular total 10, width 40, `update 5` renders 20 filled and 20 unfilled
glyphs and ` 50.0`, while (float granularity) total 49, width 49, `update 1`
renders 0 filled and 49 unfilled glyphs and `  2.0`, where exact arithmetic
would give `floor (49 * 1/49) = 1` filled. -/
theorem c3_bar_shape (total width cur cur0 : Int) (term : Terminal) (started : Bool)
    (message : String) (ht : 0 < total) (hc0 : 0 ≤ cur) (hct : cur ≤ total)
    (hw : 0 ≤ width) (hw53 : width ≤ 2 ^ 53) :
    (((⟨total, width, term, cur0, started⟩ : ProgressBar).update (some cur) message).2 =
      (if started then term.move_up 1 ++ term.clear_line else "")
        ++ renderedLine
            (pyRepeat "█" (floatFilled width cur total)
              ++ pyRepeat "░" (width - floatFilled width cur total))
            (pyFormat51 (floatPct100 cur total)) message
        ++ "\n")
    ∧ (0 : Int) ≤ floatFilled width cur total
    ∧ floatFilled width cur total ≤ width
    ∧ (pyRepeat "█" (floatFilled width cur total)
        ++ pyRepeat "░" (width - floatFilled width cur total)).length = width.toNat
    ∧ (roundDbl ((cur : ℚ) / (total : ℚ)) = (cur : ℚ) / (total : ℚ) →
        roundDbl ((width : ℚ) * ((cur : ℚ) / (total : ℚ)))
          = (width : ℚ) * ((cur : ℚ) / (total : ℚ)) →
        floatFilled width cur total = ⌊(width : ℚ) * ((cur : ℚ) / (total : ℚ))⌋)
    ∧ ((ProgressBar.init 10 40 term).update (some 5) "").2
        = renderedLine (pyRepeatN "█" 20 ++ pyRepeatN "░" 20) " 50.0" "" ++ "\n"
    ∧ ((ProgressBar.init 49 49 term).update (some 1) "").2
        = renderedLine (pyRepeatN "░" 49) "  2.0" "" ++ "\n" := by
  have htq : (0 : ℚ) < (total : ℚ) := by exact_mod_cast ht
  have hwq : (0 : ℚ) ≤ (width : ℚ) := by exact_mod_cast hw
  have hdiv0 : (0 : ℚ) ≤ (cur : ℚ) / (total : ℚ) :=
    div_nonneg (by exact_mod_cast hc0) (le_of_lt htq)
  have hdiv1 : (cur : ℚ) / (total : ℚ) ≤ 1 := by
    rw [div_le_one htq]
    exact_mod_cast hct
  have hpct0 : (0 : ℚ) ≤ roundDbl ((cur : ℚ) / (total : ℚ)) := roundDbl_nonneg hdiv0
  have hpct1 : roundDbl ((cur : ℚ) / (total : ℚ)) ≤ 1 := by
    have h := roundDbl_le_intCast hdiv0 (by exact_mod_cast hdiv1) (by norm_num : (1 : ℤ) ≤ 2 ^ 53)
    exact_mod_cast h
  have hwabs : width.natAbs ≤ 2 ^ 53 := by
    have h1 : (2 : ℤ) ^ 53 = 9007199254740992 := by norm_num
    have h2 : (2 : ℕ) ^ 53 = 9007199254740992 := by norm_num
    omega
  have hwr : roundDbl ((width : Int) : ℚ) = (width : ℚ) := roundDbl_intCast53 width hwabs
  have hprod0 : (0 : ℚ) ≤ (width : ℚ) * roundDbl ((cur : ℚ) / (total : ℚ)) :=
    mul_nonneg hwq hpct0
  have hprodw : (width : ℚ) * roundDbl ((cur : ℚ) / (total : ℚ)) ≤ (width : ℚ) :=
    mul_le_of_le_one_right hwq hpct1
  have hq10 : (0 : ℚ) ≤ roundDbl ((width : ℚ) * roundDbl ((cur : ℚ) / (total : ℚ))) :=
    roundDbl_nonneg hprod0
  have hq1w : roundDbl ((width : ℚ) * roundDbl ((cur : ℚ) / (total : ℚ))) ≤ (width : ℚ) :=
    roundDbl_le_intCast hprod0 hprodw hw53
  have hFF : floatFilled width cur total
      = pyTrunc (roundDbl ((width : ℚ) * roundDbl ((cur : ℚ) / (total : ℚ)))) := by
    rw [floatFilled, hwr]
  have hF0 : (0 : Int) ≤ floatFilled width cur total := by
    rw [hFF, pyTrunc_eq_floor _ hq10]
    exact Int.floor_nonneg.mpr hq10
  have hFw : floatFilled width cur total ≤ width := by
    rw [hFF, pyTrunc_eq_floor _ hq10]
    have h := Int.floor_le_floor hq1w
    rwa [Int.floor_intCast] at h
  refine ⟨?_, hF0, hFw, ?_, ?_, ?_, ?_⟩
  · simp only [ProgressBar.update, renderedLine, floatFilled, floatPct100]
    rw [if_pos ht]
  · rw [String.length_append, length_pyRepeat, length_pyRepeat,
      show ("█" : String).length = 1 from rfl, show ("░" : String).length = 1 from rfl]
    omega
  · intro h1 h2
    rw [floatFilled, hwr, h1, h2, pyTrunc_eq_floor _ (mul_nonneg hwq hdiv0)]
  · have h100 : roundDbl (100 : ℚ) = 100 := by
      rw [show (100 : ℚ) = ((100 : ℤ) : ℚ) by norm_num,
        roundDbl_intCast53 100 (by norm_num)]
    have hpct5 : roundDbl (((5 : Int) : ℚ) / ((10 : Int) : ℚ)) = 1 / 2 := by
      rw [show ((5 : Int) : ℚ) / ((10 : Int) : ℚ) = ((1 : ℤ) : ℚ) * 2 ^ (-1 : ℤ)
        by norm_num]
      rw [roundDbl_dyadic 1 (-1) (by norm_num) (by norm_num)]
      norm_num
    have hfill5 : pyTrunc (roundDbl (roundDbl ((40 : Int) : ℚ)
        * roundDbl (((5 : Int) : ℚ) / ((10 : Int) : ℚ)))) = 20 := by
      rw [hpct5, roundDbl_intCast53 40 (by norm_num),
        show ((40 : ℤ) : ℚ) * (1 / 2 : ℚ) = ((20 : ℤ) : ℚ) by norm_num,
        roundDbl_intCast53 20 (by norm_num), pyTrunc_intCast]
    have hfmt5 : pyFormat51 (roundDbl (roundDbl (((5 : Int) : ℚ) / ((10 : Int) : ℚ))
        * roundDbl 100)) = " 50.0" := by
      rw [hpct5, h100, show ((1 : ℚ) / 2) * 100 = ((50 : ℤ) : ℚ) by norm_num,
        roundDbl_intCast53 50 (by norm_num)]
      rw [pyFormat51_eq_of _ 500
        (by rw [show ((50 : ℤ) : ℚ) * 10 = ((500 : ℤ) : ℚ) by norm_num]
            exact roundHalfEven_intCast 500) (by norm_num)]
      decide
    simp only [ProgressBar.update, ProgressBar.init, renderedLine]
    rw [if_pos (by norm_num : (10 : Int) > 0), hfill5, hfmt5]
    simp [pyRepeat]
  · have h100 : roundDbl (100 : ℚ) = 100 := by
      rw [show (100 : ℚ) = ((100 : ℤ) : ℚ) by norm_num,
        roundDbl_intCast53 100 (by norm_num)]
    have hpct49 : roundDbl (((1 : Int) : ℚ) / ((49 : Int) : ℚ))
        = ((5882252574524729 : ℤ) : ℚ) * 2 ^ (-58 : ℤ) := by
      have h := roundDbl_eq_of (((1 : Int) : ℚ) / ((49 : Int) : ℚ)) (-6) 5882252574524729
        (by norm_num) (by norm_num) (by norm_num) (by norm_num) ?hm
      · rw [h]
        norm_num
      case hm =>
        rw [show (((1 : Int) : ℚ) / ((49 : Int) : ℚ)) * 2 ^ (52 - (-6 : ℤ))
          = 288230376151711744 / 49 by norm_num]
        rw [roundHalfEven_eq_floor_of (288230376151711744 / 49) 5882252574524729
          (by norm_num) (by norm_num)]
    have hfill49 : pyTrunc (roundDbl (roundDbl ((49 : Int) : ℚ)
        * roundDbl (((1 : Int) : ℚ) / ((49 : Int) : ℚ)))) = 0 := by
      rw [hpct49, roundDbl_intCast53 49 (by norm_num),
        show ((49 : ℤ) : ℚ) * (((5882252574524729 : ℤ) : ℚ) * 2 ^ (-58 : ℤ))
          = ((288230376151711721 : ℤ) : ℚ) * 2 ^ (-58 : ℤ) by push_cast; ring_nf]
      have hprod : roundDbl (((288230376151711721 : ℤ) : ℚ) * 2 ^ (-58 : ℤ))
          = ((9007199254740991 : ℤ) : ℚ) * 2 ^ (-53 : ℤ) := by
        have h := roundDbl_eq_of (((288230376151711721 : ℤ) : ℚ) * 2 ^ (-58 : ℤ))
          (-1) 9007199254740991 (by norm_num) (by norm_num) (by norm_num) (by norm_num) ?hm2
        · rw [h]
          norm_num
        case hm2 =>
          rw [show (((288230376151711721 : ℤ) : ℚ) * 2 ^ (-58 : ℤ)) * 2 ^ (52 - (-1 : ℤ))
            = 288230376151711721 / 32 by norm_num]
          rw [roundHalfEven_eq_floor_of (288230376151711721 / 32) 9007199254740991
            (by norm_num) (by norm_num)]
      rw [hprod, pyTrunc_eq_floor _ (by norm_num)]
      rw [show ((9007199254740991 : ℤ) : ℚ) * 2 ^ (-53 : ℤ)
        = 9007199254740991 / 9007199254740992 by norm_num]
      exact Int.floor_eq_iff.mpr ⟨by norm_num, by norm_num⟩
    have hfmt49 : pyFormat51 (roundDbl (roundDbl (((1 : Int) : ℚ) / ((49 : Int) : ℚ))
        * roundDbl 100)) = "  2.0" := by
      rw [hpct49, h100,
        show (((5882252574524729 : ℤ) : ℚ) * 2 ^ (-58 : ℤ)) * 100
          = ((588225257452472900 : ℤ) : ℚ) * 2 ^ (-58 : ℤ) by push_cast; ring_nf]
      have hp100 : roundDbl (((588225257452472900 : ℤ) : ℚ) * 2 ^ (-58 : ℤ))
          = ((4595509823847445 : ℤ) : ℚ) * 2 ^ (-51 : ℤ) := by
        have h := roundDbl_eq_of (((588225257452472900 : ℤ) : ℚ) * 2 ^ (-58 : ℤ))
          1 4595509823847445 (by norm_num) (by norm_num) (by norm_num) (by norm_num) ?hm3
        · rw [h]
          norm_num
        case hm3 =>
          rw [show (((588225257452472900 : ℤ) : ℚ) * 2 ^ (-58 : ℤ)) * 2 ^ (52 - (1 : ℤ))
            = 588225257452472900 / 128 by norm_num]
          rw [roundHalfEven_eq_succ_of (588225257452472900 / 128) 4595509823847444
            (by norm_num) (by norm_num)]
          norm_num
      rw [hp100]
      rw [pyFormat51_eq_of _ 20
        (by rw [show (((4595509823847445 : ℤ) : ℚ) * 2 ^ (-51 : ℤ)) * 10
              = 45955098238474450 / 2251799813685248 by norm_num]
            rw [roundHalfEven_eq_floor_of (45955098238474450 / 2251799813685248) 20
              (by norm_num) (by norm_num)]) (by norm_num)]
      decide
    simp only [ProgressBar.update, ProgressBar.init, renderedLine]
    rw [if_pos (by norm_num : (49 : Int) > 0), hfill49, hfmt49]
    simp [pyRepeat]
    decide

/-- Witness for C3 at total 10, width 40, current 5 on a fresh bar. -/
theorem c3_witness :
    (0 : Int) < 10 ∧ (0 : Int) ≤ 5 ∧ (5 : Int) ≤ 10 ∧ (0 : Int) ≤ 40 ∧
    (40 : Int) ≤ 2 ^ 53 ∧
    (((⟨10, 40, Terminal.mk false, 0, false⟩ : ProgressBar).update (some 5) "").2 =
        (if false then (Terminal.mk false).move_up 1 ++ (Terminal.mk false).clear_line
          else "")
          ++ renderedLine
              (pyRepeat "█" (floatFilled 40 5 10)
                ++ pyRepeat "░" (40 - floatFilled 40 5 10))
              (pyFormat51 (floatPct100 5 10)) ""
          ++ "\n")
      ∧ (0 : Int) ≤ floatFilled 40 5 10
      ∧ floatFilled 40 5 10 ≤ 40
      ∧ (pyRepeat "█" (floatFilled 40 5 10)
          ++ pyRepeat "░" (40 - floatFilled 40 5 10)).length = (40 : Int).toNat
      ∧ (roundDbl (((5 : Int) : ℚ) / ((10 : Int) : ℚ)) = ((5 : Int) : ℚ) / ((10 : Int) : ℚ) →
          roundDbl (((40 : Int) : ℚ) * (((5 : Int) : ℚ) / ((10 : Int) : ℚ)))
            = ((40 : Int) : ℚ) * (((5 : Int) : ℚ) / ((10 : Int) : ℚ)) →
          floatFilled 40 5 10 = ⌊((40 : Int) : ℚ) * (((5 : Int) : ℚ) / ((10 : Int) : ℚ))⌋)
      ∧ ((ProgressBar.init 10 40 (Terminal.mk false)).update (some 5) "").2
          = renderedLine (pyRepeatN "█" 20 ++ pyRepeatN "░" 20) " 50.0" "" ++ "\n"
      ∧ ((ProgressBar.init 49 49 (Terminal.mk false)).update (some 1) "").2
          = renderedLine (pyRepeatN "░" 49) "  2.0" "" ++ "\n" :=
  ⟨by decide, by decide, by decide, by decide, by norm_num,
    c3_bar_shape 10 40 5 0 (Terminal.mk false) false "" (by decide) (by decide)
      (by decide) (by decide) (by norm_num)⟩

/-- C10 counterexample: with total 10, width 1 and `update 11`, the bar is
`int(1 * float(11/10)) = 1` filled glyph and no unfilled glyph — exactly
`width` characters, not longer than `width` as the claim states (the
rendered percentage is still 110.0). -/
theorem c10_counterexample :
    ((ProgressBar.init 10 1 (Terminal.mk false)).update (some 11) "").2
      = renderedLine (pyRepeatN "█" 1) "110.0" "" ++ "\n"
    ∧ ¬ (1 < (pyRepeatN "█" 1).length) := by
  constructor
  · have h100 : roundDbl (100 : ℚ) = 100 := by
      rw [show (100 : ℚ) = ((100 : ℤ) : ℚ) by norm_num,
        roundDbl_intCast53 100 (by norm_num)]
    have hpct : roundDbl (((11 : Int) : ℚ) / ((10 : Int) : ℚ))
        = ((4953959590107546 : ℤ) : ℚ) * 2 ^ (-52 : ℤ) := by
      have h := roundDbl_eq_of (((11 : Int) : ℚ) / ((10 : Int) : ℚ)) 0 4953959590107546
        (by norm_num) (by norm_num) (by norm_num) (by norm_num) ?hm
      · rw [h]
        norm_num
      case hm =>
        rw [show (((11 : Int) : ℚ) / ((10 : Int) : ℚ)) * 2 ^ (52 - (0 : ℤ))
          = 49539595901075456 / 10 by norm_num]
        rw [roundHalfEven_eq_succ_of (49539595901075456 / 10) 4953959590107545
          (by norm_num) (by norm_num)]
        norm_num
    have hfill : pyTrunc (roundDbl (roundDbl ((1 : Int) : ℚ)
        * roundDbl (((11 : Int) : ℚ) / ((10 : Int) : ℚ)))) = 1 := by
      rw [hpct, roundDbl_intCast53 1 (by norm_num),
        show ((1 : ℤ) : ℚ) * (((4953959590107546 : ℤ) : ℚ) * 2 ^ (-52 : ℤ))
          = ((4953959590107546 : ℤ) : ℚ) * 2 ^ (-52 : ℤ) by ring,
        roundDbl_dyadic 4953959590107546 (-52) (by norm_num) (by norm_num),
        pyTrunc_eq_floor _ (by norm_num)]
      rw [show ((4953959590107546 : ℤ) : ℚ) * 2 ^ (-52 : ℤ)
        = 4953959590107546 / 4503599627370496 by norm_num]
      exact Int.floor_eq_iff.mpr ⟨by norm_num, by norm_num⟩
    have hfmt : pyFormat51 (roundDbl (roundDbl (((11 : Int) : ℚ) / ((10 : Int) : ℚ))
        * roundDbl 100)) = "110.0" := by
      rw [hpct, h100,
        show (((4953959590107546 : ℤ) : ℚ) * 2 ^ (-52 : ℤ)) * 100
          = ((495395959010754600 : ℤ) : ℚ) * 2 ^ (-52 : ℤ) by push_cast; ring_nf]
      have hp100 : roundDbl (((495395959010754600 : ℤ) : ℚ) * 2 ^ (-52 : ℤ))
          = ((7740561859543041 : ℤ) : ℚ) * 2 ^ (-46 : ℤ) := by
        have h := roundDbl_eq_of (((495395959010754600 : ℤ) : ℚ) * 2 ^ (-52 : ℤ))
          6 7740561859543041 (by norm_num) (by norm_num) (by norm_num) (by norm_num) ?hm2
        · rw [h]
          norm_num
        case hm2 =>
          rw [show (((495395959010754600 : ℤ) : ℚ) * 2 ^ (-52 : ℤ)) * 2 ^ (52 - (6 : ℤ))
            = 495395959010754600 / 64 by norm_num]
          rw [roundHalfEven_eq_succ_of (495395959010754600 / 64) 7740561859543040
            (by norm_num) (by norm_num)]
          norm_num
      rw [hp100]
      rw [pyFormat51_eq_of _ 1100
        (by rw [show (((7740561859543041 : ℤ) : ℚ) * 2 ^ (-46 : ℤ)) * 10
              = 77405618595430410 / 70368744177664 by norm_num]
            rw [roundHalfEven_eq_floor_of (77405618595430410 / 70368744177664) 1100
              (by norm_num) (by norm_num)]) (by norm_num)]
      decide
    simp only [ProgressBar.update, ProgressBar.init, renderedLine]
    rw [if_pos (by norm_num : (10 : Int) > 0), hfill, hfmt]
    decide
  · decide

/-- C10 (amended): for every ProgressBar with `0 < total < current` and
`0 < width`, with `width` and `current` at most 2^53 (so no float operation
overflows and the width is exactly representable), `update current message`
renders a bar of `int(float(width) * float(current/total)) ≥ width` filled
glyphs and zero unfilled glyphs (the negative remainder count yields the
empty string; nothing raises), so the bar has at least `width` characters,
and the double `current/total * 100` is at least 100 (float rounding can
make it exactly 100.0 even though the exact ratio exceeds 1). -/
theorem c10_overshoot (total width cur cur0 : Int) (term : Terminal) (started : Bool)
    (message : String) (ht : 0 < total) (hw : 0 < width) (hc : total < cur)
    (hw53 : width ≤ 2 ^ 53) (hc53 : cur ≤ 2 ^ 53) :
    (((⟨total, width, term, cur0, started⟩ : ProgressBar).update (some cur) message).2 =
      (if started then term.move_up 1 ++ term.clear_line else "")
        ++ renderedLine (pyRepeat "█" (floatFilled width cur total))
            (pyFormat51 (floatPct100 cur total)) message
        ++ "\n")
    ∧ (pyRepeat "█" (floatFilled width cur total)).length
        = (floatFilled width cur total).toNat
    ∧ width ≤ floatFilled width cur total
    ∧ (100 : ℚ) ≤ floatPct100 cur total := by
  have htq : (0 : ℚ) < (total : ℚ) := by exact_mod_cast ht
  have hwq : (0 : ℚ) ≤ (width : ℚ) := by
    have := le_of_lt hw
    exact_mod_cast this
  have hdiv1 : (1 : ℚ) ≤ (cur : ℚ) / (total : ℚ) := by
    rw [le_div_iff₀ htq, one_mul]
    exact_mod_cast le_of_lt hc
  have hpct1 : (1 : ℚ) ≤ roundDbl ((cur : ℚ) / (total : ℚ)) := by
    have h := intCast_le_roundDbl (by norm_num : (0 : ℤ) ≤ 1)
      (by norm_num : (1 : ℤ) ≤ 2 ^ 53) (by exact_mod_cast hdiv1)
    exact_mod_cast h
  have hwabs : width.natAbs ≤ 2 ^ 53 := by
    have h1 : (2 : ℤ) ^ 53 = 9007199254740992 := by norm_num
    have h2 : (2 : ℕ) ^ 53 = 9007199254740992 := by norm_num
    omega
  have hwr : roundDbl ((width : Int) : ℚ) = (width : ℚ) := roundDbl_intCast53 width hwabs
  have hprodw : (width : ℚ) ≤ (width : ℚ) * roundDbl ((cur : ℚ) / (total : ℚ)) :=
    le_mul_of_one_le_right hwq hpct1
  have hFF : floatFilled width cur total
      = pyTrunc (roundDbl ((width : ℚ) * roundDbl ((cur : ℚ) / (total : ℚ)))) := by
    rw [floatFilled, hwr]
  have hq1w : (width : ℚ) ≤ roundDbl ((width : ℚ) * roundDbl ((cur : ℚ) / (total : ℚ))) :=
    intCast_le_roundDbl (le_of_lt hw) hw53 hprodw
  have hq10 : (0 : ℚ) ≤ roundDbl ((width : ℚ) * roundDbl ((cur : ℚ) / (total : ℚ))) :=
    le_trans hwq hq1w
  have hFw : width ≤ floatFilled width cur total := by
    rw [hFF, pyTrunc_eq_floor _ hq10]
    exact Int.le_floor.mpr hq1w
  have h100 : roundDbl (100 : ℚ) = 100 := by
    rw [show (100 : ℚ) = ((100 : ℤ) : ℚ) by norm_num,
      roundDbl_intCast53 100 (by norm_num)]
  refine ⟨?_, ?_, hFw, ?_⟩
  · simp only [ProgressBar.update, renderedLine, floatFilled, floatPct100]
    rw [if_pos ht, pyRepeat_nonpos "░"
      (by have h := hFw; rw [floatFilled] at h; omega :
        width - pyTrunc (roundDbl (roundDbl ((width : Int) : ℚ)
          * roundDbl (((cur : Int) : ℚ) / ((total : Int) : ℚ)))) ≤ 0)]
    simp
  · rw [length_pyRepeat, show ("█" : String).length = 1 from rfl]
    omega
  · rw [floatPct100, h100]
    have harg : (100 : ℚ) ≤ roundDbl ((cur : ℚ) / (total : ℚ)) * 100 := by
      nlinarith [hpct1]
    have h := intCast_le_roundDbl (by norm_num : (0 : ℤ) ≤ 100)
      (by norm_num : (100 : ℤ) ≤ 2 ^ 53) (by exact_mod_cast harg)
    exact_mod_cast h

/-- Witness for C10 at total 10, width 40, current 15 on a fresh bar. -/
theorem c10_witness :
    (0 : Int) < 10 ∧ (0 : Int) < 40 ∧ (10 : Int) < 15 ∧ (40 : Int) ≤ 2 ^ 53 ∧
    (15 : Int) ≤ 2 ^ 53 ∧
    (((⟨10, 40, Terminal.mk false, 0, false⟩ : ProgressBar).update (some 15) "").2 =
        (if false then (Terminal.mk false).move_up 1 ++ (Terminal.mk false).clear_line
          else "")
          ++ renderedLine (pyRepeat "█" (floatFilled 40 15 10))
              (pyFormat51 (floatPct100 15 10)) ""
          ++ "\n")
      ∧ (pyRepeat "█" (floatFilled 40 15 10)).length = (floatFilled 40 15 10).toNat
      ∧ (40 : Int) ≤ floatFilled 40 15 10
      ∧ (100 : ℚ) ≤ floatPct100 15 10 :=
  ⟨by decide, by decide, by decide, by norm_num, by norm_num,
    c10_overshoot 10 40 15 0 (Terminal.mk false) false "" (by decide) (by decide)
      (by decide) (by norm_num) (by norm_num)⟩

end Roadterm
